import Mathlib

/-!
Verification of the export pipeline and annotation lifecycle of the
rasa-chatbot training platform.

The Python sources embedded here (shallowly, as pure Lean functions) are:
* `api/services/export_service.py` — entity rendering (`_format_entity_in_text`),
  aggregation (`convert_annotations_to_nlu_dict`), YAML serialization
  (`convert_to_rasa_nlu_yaml`), drift validation (`validate_annotations_export`);
* `api/routers/export.py` — `preview_nlu_export`, `download_nlu_export`;
* `api/services/annotation_service.py` — `_check_user_permissions`,
  `approve_annotation`, `delete_annotation`;
* `training_platform/utils/annotation_helpers.py` — `validate_entity_spans`.

Python strings are modeled as Lean `String` (lists of characters); Python
slicing `s[a:b]` for natural indices is `(s.data.take b).drop a`, which agrees
with Python clamping semantics for all natural `a`, `b`.  Python `dict`s with
insertion order are modeled as association lists (`List (key × value)`).
Python `sorted` (a stable sort) is modeled by `List.insertionSort`, which is
also stable.  Database reads and the YAML library parser are not reproducible
in a pure embedding; the router models below therefore take the list of
approved annotation records and the result triple of `validate_nlu_yaml`
as explicit inputs, and the claims quantify over them.
-/

/-- An entity dict as consumed by `_format_entity_in_text`
(`export_service.py`): keys `entity`, `value`, `start`, `end` all present. -/
structure RenderEntity where
  entity : String
  value : String
  start : Nat
  «end» : Nat
deriving DecidableEq, Repr

instance : DecidableRel (fun (a b : RenderEntity) => b.start ≤ a.start) :=
  fun _ _ => Nat.decLe _ _

/-- Loop body of `_format_entity_in_text`: extract `text[start:end]` from the
original text, wrap as `[entity_text](entity_type)`, and splice into the
accumulated result at the same offsets. -/
def renderStep (text : List Char) (result : List Char) (e : RenderEntity) : List Char :=
  let entity_text := (text.take e.«end»).drop e.start
  let markdown_entity := [ '[' ] ++ entity_text ++ [ ']', '(' ] ++ e.entity.data ++ [ ')' ]
  (result.take e.start) ++ markdown_entity ++ (result.drop e.«end»)

/-- `export_service._format_entity_in_text`: if the entity list is empty the
text is returned unchanged; otherwise the entities are sorted by start offset
in descending order (stable, as Python `sorted(..., reverse=True)`) and each
is substituted into the running result. -/
def _format_entity_in_text (text : String) (entities : List RenderEntity) : String :=
  if entities = [] then text
  else
    let sorted_entities := entities.insertionSort (fun a b => b.start ≤ a.start)
    String.mk (sorted_entities.foldl (renderStep text.data) text.data)

/-- C5: rendering with an empty entity list returns the text unchanged, and
rendering a single entity whose span covers the whole text yields exactly
`[text](label)`. -/
theorem format_entity_empty_and_whole_span :
    (∀ (text : String), _format_entity_in_text text [] = text)
    ∧ (∀ (text label v : String),
        _format_entity_in_text text [⟨label, v, 0, text.length⟩] =
          "[" ++ text ++ "](" ++ label ++ ")") := by
  constructor
  · intro text
    rfl
  · intro text label v
    apply String.ext
    have hlen : text.length = text.data.length := rfl
    simp only [_format_entity_in_text, List.insertionSort, List.orderedInsert, List.foldl,
      renderStep, if_neg (List.cons_ne_nil _ _)]
    simp only [hlen, List.take_zero, List.drop_zero, List.take_length, List.drop_length,
      List.append_nil, List.nil_append, String.data_append, List.cons_append,
      List.append_assoc]

/-- Changing only the `value` field commutes with `orderedInsert` under the
start-offset ordering used by the renderer. -/
theorem orderedInsert_value_map (f : RenderEntity → String) (a : RenderEntity) :
    ∀ (l : List RenderEntity),
      List.orderedInsert (fun x y => y.start ≤ x.start) { a with value := f a }
          (l.map (fun e => { e with value := f e })) =
        (List.orderedInsert (fun x y => y.start ≤ x.start) a l).map
          (fun e => { e with value := f e }) := by
  intro l
  induction l with
  | nil => rfl
  | cons b t ih =>
    by_cases h : b.start ≤ a.start
    · simp [List.orderedInsert, h]
    · simp [List.orderedInsert, h, ih]

/-- Changing only the `value` field commutes with the renderer's sort. -/
theorem insertionSort_value_map (f : RenderEntity → String) :
    ∀ (l : List RenderEntity),
      List.insertionSort (fun x y => y.start ≤ x.start)
          (l.map (fun e => { e with value := f e })) =
        (List.insertionSort (fun x y => y.start ≤ x.start) l).map
          (fun e => { e with value := f e }) := by
  intro l
  induction l with
  | nil => rfl
  | cons b t ih =>
    simp only [List.map_cons, List.insertionSort, ih, orderedInsert_value_map]

/-- C10: the renderer wraps the substring `text[start:end]` taken from the
original text, never the stored `value` field: the output is invariant under
arbitrary rewrites of every entity's `value`, and for a single entity the
output is exactly the splice of `[text[start:end]](label)` into the text. -/
theorem format_entity_ignores_value :
    (∀ (text : String) (entities : List RenderEntity) (f : RenderEntity → String),
        _format_entity_in_text text (entities.map (fun e => { e with value := f e })) =
          _format_entity_in_text text entities)
    ∧ (∀ (text : String) (e : RenderEntity),
        _format_entity_in_text text [e] =
          String.mk ((text.data.take e.start) ++
            ([ '[' ] ++ ((text.data.take e.«end»).drop e.start) ++ [ ']', '(' ] ++
              e.entity.data ++ [ ')' ]) ++
            (text.data.drop e.«end»))) := by
  constructor
  · intro text es f
    by_cases h : es = []
    · subst h; rfl
    · unfold _format_entity_in_text
      rw [if_neg (by simpa using h), if_neg h, insertionSort_value_map]
      simp only [List.foldl_map]
      rfl
  · intro text e
    rfl

/-- The fields of an `Annotation` row (`api/schemas/db_models.py`) that the
verified operations read or write.  `approved_at` (a wall-clock timestamp) is
outside the pure embedding and omitted; no verified property mentions it. -/
structure AnnotationRecord where
  message_text : String
  corrected_intent : Option String
  corrected_entities : Option (List RenderEntity)
  status : String
  annotated_by : Nat
  rejection_reason : Option String
  approved_by : Option Nat
deriving DecidableEq, Repr

/-- An `HTTPException` as raised by the service layer: HTTP status code plus
detail message. -/
structure ApiError where
  status_code : Nat
  detail : String
deriving DecidableEq, Repr

/-- `annotation_service._check_user_permissions`: admins pass unconditionally;
update/delete require the creator and a status in {pending, rejected} (403 and
400 respectively on violation); approve requires the qa_lead or admin role
(403 on violation). -/
def _check_user_permissions (a : AnnotationRecord) (user_id : Nat)
    (user_role : String) (operation : String) : Option ApiError :=
  if user_role = "admin" then none
  else if operation = "update" ∨ operation = "delete" then
    if a.annotated_by ≠ user_id then
      some ⟨403, "Only the creator or admin can perform this operation"⟩
    else if ¬ (a.status = "pending" ∨ a.status = "rejected") then
      some ⟨400, "Cannot " ++ operation ++ " with status \x27" ++ a.status ++ "\x27"⟩
    else none
  else if operation = "approve" then
    if ¬ (user_role = "qa_lead" ∨ user_role = "admin") then
      some ⟨403, "Only QA Lead or Admin can approve/reject"⟩
    else none
  else none

/-- `annotation_service.approve_annotation` restricted to its pure core: the
permission gate, the pending-status guard, and the field updates.  Database
commit/refresh and the activity log are I/O around this core and change no
further field of the record. -/
def approve_annotation (a : AnnotationRecord) (approved : Bool)
    (rejection_reason : Option String) (user_id : Nat) (user_role : String) :
    Except ApiError AnnotationRecord :=
  match _check_user_permissions a user_id user_role "approve" with
  | some e => Except.error e
  | none =>
    if a.status ≠ "pending" then
      Except.error ⟨400, "Cannot approve/reject annotation with status \x27" ++ a.status ++ "\x27"⟩
    else
      Except.ok { a with
        status := if approved then "approved" else "rejected",
        approved_by := some user_id,
        rejection_reason := if approved then none else rejection_reason }

/-- `annotation_service.delete_annotation` restricted to its pure core: the
permission gate; `Except.ok` means the row is deleted, any `Except.error`
means the exception propagates and the row is untouched. -/
def delete_annotation (a : AnnotationRecord) (user_id : Nat)
    (user_role : String) : Except ApiError Unit :=
  match _check_user_permissions a user_id user_role "delete" with
  | some e => Except.error e
  | none => Except.ok ()

/-- A concrete already-approved record, used to exhibit behaviour on
non-pending statuses. -/
def approvedExample : AnnotationRecord :=
  { message_text := "hola", corrected_intent := some "saludo",
    corrected_entities := none, status := "approved", annotated_by := 1,
    rejection_reason := none, approved_by := some 2 }

/-- A concrete rejected record whose creator is user 7. -/
def rejectedExample : AnnotationRecord :=
  { message_text := "adios", corrected_intent := some "despedida",
    corrected_entities := none, status := "rejected", annotated_by := 7,
    rejection_reason := some "typo", approved_by := none }

/-- C8 (counterexample): approving an already-approved record as qa_lead
fails with HTTP status 400, not the 403 the claim asserts. -/
theorem approve_non_pending_is_400_not_403 :
    approve_annotation approvedExample true none 2 "qa_lead" =
      Except.error ⟨400, "Cannot approve/reject annotation with status \x27approved\x27"⟩
    ∧ (400 : Nat) ≠ 403 := by
  exact ⟨rfl, by decide⟩

/-- The approve-permission gate passes exactly for qa_lead and admin. -/
theorem perm_approve_none (a : AnnotationRecord) (uid : Nat) (role : String)
    (h : role = "qa_lead" ∨ role = "admin") :
    _check_user_permissions a uid role "approve" = none := by
  rcases h with h | h <;> subst h <;> rfl

/-- C8 (amended): approving or rejecting a non-pending record always fails —
with a 400 state-conflict error whenever the caller's role passes the
permission gate (qa_lead or admin) — and never returns a modified record. -/
theorem approve_non_pending_state_conflict :
    ∀ (a : AnnotationRecord) (approved : Bool) (reason : Option String)
      (uid : Nat) (role : String),
      a.status ≠ "pending" →
      ((role = "qa_lead" ∨ role = "admin") →
        approve_annotation a approved reason uid role =
          Except.error ⟨400,
            "Cannot approve/reject annotation with status \x27" ++ a.status ++ "\x27"⟩)
      ∧ (∀ (a' : AnnotationRecord),
          approve_annotation a approved reason uid role ≠ Except.ok a') := by
  intro a approved reason uid role hs
  constructor
  · intro hrole
    unfold approve_annotation
    split
    · next e heq =>
        rw [perm_approve_none a uid role hrole] at heq
        exact Option.noConfusion heq
    · rw [if_pos hs]
  · intro a'
    unfold approve_annotation
    split
    · exact fun h => Except.noConfusion h
    · rw [if_pos hs]
      exact fun h => Except.noConfusion h

/-- C8 witness: the amended theorem applied to the concrete approved record
with an admin caller. -/
theorem approve_non_pending_state_conflict_witness :
    approvedExample.status ≠ "pending" ∧
      approve_annotation approvedExample true none 9 "admin" =
        Except.error ⟨400, "Cannot approve/reject annotation with status \x27approved\x27"⟩ := by
  refine ⟨by decide, ?_⟩
  exact (approve_non_pending_state_conflict approvedExample true none 9 "admin"
    (by decide)).1 (Or.inr rfl)

/-- C9 (counterexample): the creator (a plain qa_analyst) deletes a rejected
record successfully, contradicting the claim that deletion fails whenever the
status is not pending. -/
theorem delete_rejected_by_creator_succeeds :
    delete_annotation rejectedExample 7 "qa_analyst" = Except.ok () ∧
      rejectedExample.status ≠ "pending" := by
  exact ⟨rfl, by decide⟩

/-- C9 (amended): deletion succeeds exactly when the caller is an admin, or
is the record's creator and the status is pending or rejected; in every other
case the exception propagates and the record is not removed. -/
theorem delete_permission_characterization :
    ∀ (a : AnnotationRecord) (uid : Nat) (role : String),
      delete_annotation a uid role = Except.ok () ↔
        (role = "admin" ∨
          (a.annotated_by = uid ∧ (a.status = "pending" ∨ a.status = "rejected"))) := by
  intro a uid role
  unfold delete_annotation _check_user_permissions
  by_cases hr : role = "admin"
  · rw [if_pos hr]
    simp [hr]
  · rw [if_neg hr, if_pos (Or.inr rfl)]
    by_cases hu : a.annotated_by = uid
    · rw [if_neg (not_not_intro hu)]
      by_cases hs : (a.status = "pending" ∨ a.status = "rejected")
      · rw [if_neg (not_not_intro hs)]
        simp [hr, hu, hs]
      · rw [if_pos hs]
        simp [hr, hu, hs]
    · rw [if_pos hu]
      simp [hr, hu]

/-- Rendered training example of one record: the renderer applied to the
message text and `corrected_entities or []`. -/
def renderedExample (a : AnnotationRecord) : String :=
  _format_entity_in_text a.message_text (a.corrected_entities.getD [])

/-- Mutation performed by one aggregation-loop iteration on the intent
dictionary: create the key at the end on first touch (`nlu_dict[intent] = []`)
and append the example unless it is already present. -/
def addExample : List (String × List String) → String → String → List (String × List String)
  | [], intent, ex => [(intent, [ ex ])]
  | p :: rest, intent, ex =>
    if p.1 = intent then
      (p.1, if ex ∈ p.2 then p.2 else p.2 ++ [ ex ]) :: rest
    else
      p :: addExample rest intent ex

/-- Loop body of `convert_annotations_to_nlu_dict`: skip a record whose
`corrected_intent` is `None` or empty, otherwise add its rendered example. -/
def aggregateStep (nlu_dict : List (String × List String)) (a : AnnotationRecord) :
    List (String × List String) :=
  match a.corrected_intent with
  | none => nlu_dict
  | some intent =>
    if intent = "" then nlu_dict
    else addExample nlu_dict intent (renderedExample a)

/-- `export_service.convert_annotations_to_nlu_dict`: fold the loop body over
the records, starting from the empty dict. -/
def convert_annotations_to_nlu_dict (anns : List AnnotationRecord) :
    List (String × List String) :=
  anns.foldl aggregateStep []

/-- Dictionary lookup on the insertion-ordered association list. -/
def lookupIntent : List (String × List String) → String → Option (List String)
  | [], _ => none
  | p :: rest, intent => if p.1 = intent then some p.2 else lookupIntent rest intent

/-- The intent a record contributes to: its `corrected_intent` unless that is
`None` or empty. -/
def keptIntent (a : AnnotationRecord) : Option String :=
  match a.corrected_intent with
  | none => none
  | some intent => if intent = "" then none else some intent

/-- All rendered examples destined for one intent, in input order (with
duplicates). -/
def renderedExamplesFor (anns : List AnnotationRecord) (intent : String) : List String :=
  (anns.filter (fun a => decide (keptIntent a = some intent))).map renderedExample

/-- Effect of one `addExample` call on a single intent's example list. -/
def insertExample (o : Option (List String)) (ex : String) : List String :=
  match o with
  | none => [ ex ]
  | some l => if ex ∈ l then l else l ++ [ ex ]

/-- Iterated `insertExample` over a stream of examples. -/
def foldInsert (o : Option (List String)) (l : List String) : Option (List String) :=
  l.foldl (fun acc ex => some (insertExample acc ex)) o

theorem lookupIntent_addExample (st : List (String × List String)) (j i ex : String) :
    lookupIntent (addExample st j ex) i =
      if j = i then some (insertExample (lookupIntent st i) ex)
      else lookupIntent st i := by
  induction st with
  | nil =>
    by_cases h : j = i <;> simp [addExample, lookupIntent, h, insertExample]
  | cons p rest ih =>
    by_cases hpj : p.1 = j
    · by_cases hji : j = i
      · subst hji
        simp [addExample, lookupIntent, hpj, insertExample]
      · simp [addExample, lookupIntent, hpj, hji, fun h => hji (hpj ▸ h)]
    · by_cases hpi : p.1 = i
      · have hji : ¬ j = i := fun h => hpj (by rw [h, hpi])
        have hij : ¬ i = j := fun h => hji h.symm
        simp [addExample, lookupIntent, hpj, hpi, hji, hij]
      · simp [addExample, lookupIntent, hpj, hpi, ih]

theorem aggregateStep_eq (st : List (String × List String)) (a : AnnotationRecord) :
    aggregateStep st a =
      (match keptIntent a with
       | none => st
       | some j => addExample st j (renderedExample a)) := by
  unfold aggregateStep keptIntent
  rcases a.corrected_intent with _ | i
  · rfl
  · by_cases h : i = "" <;> simp [h]

theorem renderedExamplesFor_cons (a : AnnotationRecord) (rest : List AnnotationRecord)
    (i : String) :
    renderedExamplesFor (a :: rest) i =
      if keptIntent a = some i then renderedExample a :: renderedExamplesFor rest i
      else renderedExamplesFor rest i := by
  unfold renderedExamplesFor
  by_cases h : keptIntent a = some i <;> simp [List.filter_cons, h]

theorem lookupIntent_foldl (anns : List AnnotationRecord) :
    ∀ (st : List (String × List String)) (i : String),
      lookupIntent (anns.foldl aggregateStep st) i =
        foldInsert (lookupIntent st i) (renderedExamplesFor anns i) := by
  induction anns with
  | nil => intro st i; rfl
  | cons a rest ih =>
    intro st i
    show lookupIntent (rest.foldl aggregateStep (aggregateStep st a)) i = _
    rw [ih, aggregateStep_eq, renderedExamplesFor_cons]
    rcases hk : keptIntent a with _ | j
    · simp [hk]
    · by_cases hji : j = i
      · subst hji
        simp only [hk, if_pos rfl, lookupIntent_addExample, if_pos rfl]
        rfl
      · simp only [hk, lookupIntent_addExample, if_neg hji]
        simp [hji]

/-- First-occurrence deduplication: keep each string the first time it
appears, drop all later repetitions. -/
def firstDedup : List String → List String
  | [] => []
  | x :: l => x :: firstDedup (l.filter (fun y => decide (y ≠ x)))
termination_by l => l.length
decreasing_by
  simp_wf
  exact Nat.lt_succ_of_le (List.length_filter_le _ _)

/-- The example-list fold actually performed by the aggregation loop on one
intent: append each incoming example unless already present. -/
def dedupFold (acc : List String) (l : List String) : List String :=
  l.foldl (fun ac ex => if ex ∈ ac then ac else ac ++ [ ex ]) acc

theorem foldInsert_some (l : List String) :
    ∀ (acc : List String), foldInsert (some acc) l = some (dedupFold acc l) := by
  induction l with
  | nil => intro acc; rfl
  | cons x t ih =>
    intro acc
    show foldInsert (some (insertExample (some acc) x)) t = _
    rw [ih]
    rfl

theorem dedupFold_eq_firstDedup (l : List String) :
    ∀ (acc : List String),
      dedupFold acc l = acc ++ firstDedup (l.filter (fun y => decide (y ∉ acc))) := by
  induction l with
  | nil => intro acc; simp [dedupFold, firstDedup]
  | cons x t ih =>
    intro acc
    by_cases hx : x ∈ acc
    · have hstep : dedupFold acc (x :: t) = dedupFold acc t := by
        simp [dedupFold, hx]
      rw [hstep, ih]
      have hfilter : (x :: t).filter (fun y => decide (y ∉ acc)) =
          t.filter (fun y => decide (y ∉ acc)) := by
        simp [List.filter_cons, hx]
      rw [hfilter]
    · have hstep : dedupFold acc (x :: t) = dedupFold (acc ++ [ x ]) t := by
        simp [dedupFold, hx]
      rw [hstep, ih]
      have hfilter : (x :: t).filter (fun y => decide (y ∉ acc)) =
          x :: (t.filter (fun y => decide (y ∉ acc))) := by
        simp [List.filter_cons, hx]
      rw [hfilter, firstDedup]
      rw [List.filter_filter]
      have hcongr : (t.filter (fun y => decide (y ∉ acc ++ [ x ]))) =
          (t.filter (fun y => decide (y ≠ x) && decide (y ∉ acc))) := by
        apply List.filter_congr
        intro y _
        by_cases h1 : y = x <;> by_cases h2 : y ∈ acc <;>
          simp [h1, h2, List.mem_append]
      rw [hcongr, List.append_assoc]
      rfl

theorem mem_firstDedup (y : String) : ∀ (l : List String), y ∈ firstDedup l ↔ y ∈ l := by
  intro l
  induction l using firstDedup.induct with
  | case1 => simp [firstDedup]
  | case2 x t ih =>
    rw [firstDedup]
    by_cases hyx : y = x
    · subst hyx; simp
    · simp only [List.mem_cons, ih, List.mem_filter]
      simp [hyx]

theorem nodup_firstDedup : ∀ (l : List String), (firstDedup l).Nodup := by
  intro l
  induction l using firstDedup.induct with
  | case1 => simp [firstDedup]
  | case2 x t ih =>
    rw [firstDedup]
    refine List.Pairwise.cons ?_ ih
    intro b hb
    have hbf := (mem_firstDedup b _).1 hb
    have := List.of_mem_filter hbf
    simpa using (of_decide_eq_true this).symm

theorem sublist_firstDedup : ∀ (l : List String), List.Sublist (firstDedup l) l := by
  intro l
  induction l using firstDedup.induct with
  | case1 => simp [firstDedup]
  | case2 x t ih =>
    rw [firstDedup]
    exact List.Sublist.cons₂ x (ih.trans (List.filter_sublist t))

theorem indexOf_filter_lt (p : String → Bool) :
    ∀ (l : List String) (x y : String), x ∈ l.filter p → y ∈ l.filter p →
      (l.filter p).indexOf x < (l.filter p).indexOf y →
      l.indexOf x < l.indexOf y := by
  intro l
  induction l with
  | nil => intro x y hx _ _; simp at hx
  | cons a t ih =>
    intro x y hx hy hlt
    by_cases hpa : p a
    · rw [List.filter_cons_of_pos hpa] at hx hy hlt
      by_cases hya : y = a
      · subst hya
        rw [List.indexOf_cons_self] at hlt
        exact absurd hlt (Nat.not_lt_zero _)
      · rw [List.indexOf_cons_ne _ (fun h => hya h.symm)]
        by_cases hxa : x = a
        · subst hxa
          rw [List.indexOf_cons_self]
          exact Nat.succ_pos _
        · rw [List.indexOf_cons_ne _ (fun h => hxa h.symm)]
          rw [List.indexOf_cons_ne _ (fun h => hxa h.symm),
            List.indexOf_cons_ne _ (fun h => hya h.symm)] at hlt
          have hx' : x ∈ t.filter p := by
            rcases List.mem_cons.1 hx with h | h
            · exact absurd h hxa
            · exact h
          have hy' : y ∈ t.filter p := by
            rcases List.mem_cons.1 hy with h | h
            · exact absurd h hya
            · exact h
          exact Nat.succ_lt_succ (ih x y hx' hy' (Nat.lt_of_succ_lt_succ hlt))
    · rw [List.filter_cons_of_neg hpa] at hx hy hlt
      have hxa : x ≠ a := by
        intro h; subst h
        exact hpa (List.of_mem_filter hx)
      have hya : y ≠ a := by
        intro h; subst h
        exact hpa (List.of_mem_filter hy)
      rw [List.indexOf_cons_ne _ (fun h => hxa h.symm),
        List.indexOf_cons_ne _ (fun h => hya h.symm)]
      exact Nat.succ_lt_succ (ih x y hx hy hlt)

theorem pairwise_indexOf_firstDedup :
    ∀ (l : List String),
      (firstDedup l).Pairwise (fun x y => l.indexOf x < l.indexOf y) := by
  intro l
  induction l using firstDedup.induct with
  | case1 => simp [firstDedup]
  | case2 x t ih =>
    rw [firstDedup]
    refine List.Pairwise.cons ?_ ?_
    · intro b hb
      have hbf := (mem_firstDedup b _).1 hb
      have hbx : b ≠ x := by
        have h := List.of_mem_filter hbf
        simpa using h
      rw [List.indexOf_cons_self, List.indexOf_cons_ne _ (fun h => hbx h.symm)]
      exact Nat.succ_pos _
    · refine ih.imp_of_mem ?_
      intro a b ha hb hR
      have haf := (mem_firstDedup a _).1 ha
      have hbf := (mem_firstDedup b _).1 hb
      have hax : a ≠ x := by
        have h := List.of_mem_filter haf
        simpa using h
      have hbx : b ≠ x := by
        have h := List.of_mem_filter hbf
        simpa using h
      have hlift := indexOf_filter_lt _ t a b haf hbf hR
      rw [List.indexOf_cons_ne _ (fun h => hax h.symm),
        List.indexOf_cons_ne _ (fun h => hbx h.symm)]
      exact Nat.succ_lt_succ hlift

theorem length_firstDedup (l : List String) :
    (firstDedup l).length = l.toFinset.card := by
  have h1 : (firstDedup l).toFinset = l.toFinset := by
    apply Finset.ext
    intro y
    simp [List.mem_toFinset, mem_firstDedup]
  calc (firstDedup l).length
      = (firstDedup l).toFinset.card :=
        (List.toFinset_card_of_nodup (nodup_firstDedup l)).symm
    _ = l.toFinset.card := by rw [h1]

theorem lookup_convert_eq (anns : List AnnotationRecord) (i : String) :
    lookupIntent (convert_annotations_to_nlu_dict anns) i =
      if renderedExamplesFor anns i = [] then none
      else some (firstDedup (renderedExamplesFor anns i)) := by
  have h0 : lookupIntent ([] : List (String × List String)) i = none := rfl
  rw [show convert_annotations_to_nlu_dict anns = anns.foldl aggregateStep [] from rfl,
    lookupIntent_foldl, h0]
  cases h : renderedExamplesFor anns i with
  | nil => rfl
  | cons x t =>
    rw [if_neg (List.cons_ne_nil x t)]
    show foldInsert (some [ x ]) t = _
    rw [foldInsert_some]
    have h2 : dedupFold [ x ] t = dedupFold [] (x :: t) := by
      simp [dedupFold]
    rw [h2, dedupFold_eq_firstDedup]
    have h3 : (x :: t).filter (fun y => decide (y ∉ ([] : List String))) = x :: t := by
      apply List.filter_eq_self.2
      intro y _
      simp
    rw [h3]
    rfl

/-- C2: the Corpus Aggregator skips every record whose `corrected_intent` is
null or empty; for every intent the produced example list is duplicate-free,
contains exactly the rendered examples destined for that intent, is a sublist
of the incoming rendered stream ordered by first occurrence, and its length
is the number of distinct rendered strings for that intent. -/
theorem convert_annotations_dedup_first_seen :
    (∀ (pre post : List AnnotationRecord) (a : AnnotationRecord),
        a.corrected_intent = none ∨ a.corrected_intent = some "" →
        convert_annotations_to_nlu_dict (pre ++ a :: post) =
          convert_annotations_to_nlu_dict (pre ++ post))
    ∧ (∀ (anns : List AnnotationRecord) (i : String),
        (lookupIntent (convert_annotations_to_nlu_dict anns) i = none ↔
          renderedExamplesFor anns i = [])
        ∧ ∀ (exs : List String),
            lookupIntent (convert_annotations_to_nlu_dict anns) i = some exs →
              exs.Nodup
              ∧ (∀ x, x ∈ exs ↔ x ∈ renderedExamplesFor anns i)
              ∧ List.Sublist exs (renderedExamplesFor anns i)
              ∧ exs.Pairwise (fun x y =>
                  (renderedExamplesFor anns i).indexOf x <
                    (renderedExamplesFor anns i).indexOf y)
              ∧ exs.length = (renderedExamplesFor anns i).toFinset.card) := by
  constructor
  · intro pre post a h
    unfold convert_annotations_to_nlu_dict
    rw [List.foldl_append, List.foldl_append]
    have hskip : aggregateStep (pre.foldl aggregateStep []) a =
        pre.foldl aggregateStep [] := by
      rcases h with h | h <;> simp [aggregateStep, h]
    rw [show List.foldl aggregateStep (pre.foldl aggregateStep []) (a :: post) =
        List.foldl aggregateStep (aggregateStep (pre.foldl aggregateStep []) a) post
      from rfl, hskip]
  · intro anns i
    constructor
    · rw [lookup_convert_eq]
      by_cases h : renderedExamplesFor anns i = [] <;> simp [h]
    · intro exs hexs
      rw [lookup_convert_eq] at hexs
      by_cases h : renderedExamplesFor anns i = []
      · rw [if_pos h] at hexs
        exact Option.noConfusion hexs
      · rw [if_neg h] at hexs
        have hexs' : exs = firstDedup (renderedExamplesFor anns i) :=
          (Option.some.injEq _ _ ▸ hexs : _ = _).symm
        subst hexs'
        exact ⟨nodup_firstDedup _,
          fun x => mem_firstDedup x _,
          sublist_firstDedup _,
          pairwise_indexOf_firstDedup _,
          length_firstDedup _⟩

/-- Concrete record: intent `saludo`, plain text `hola`. -/
def aggExampleA : AnnotationRecord :=
  { message_text := "hola", corrected_intent := some "saludo",
    corrected_entities := none, status := "approved", annotated_by := 1,
    rejection_reason := none, approved_by := some 2 }

/-- Concrete record: duplicate of `aggExampleA` (same rendered example). -/
def aggExampleB : AnnotationRecord :=
  { message_text := "hola", corrected_intent := some "saludo",
    corrected_entities := none, status := "approved", annotated_by := 3,
    rejection_reason := none, approved_by := some 2 }

/-- Concrete record with no corrected intent (entity-only annotation). -/
def aggExampleC : AnnotationRecord :=
  { message_text := "dos camisas", corrected_intent := none,
    corrected_entities := some [⟨"cantidad", "dos", 0, 3⟩],
    status := "approved", annotated_by := 1,
    rejection_reason := none, approved_by := some 2 }

/-- C2 witness: the aggregator theorem applied to a concrete input containing
a skipped entity-only record and a duplicated example. -/
theorem convert_annotations_dedup_first_seen_witness :
    (convert_annotations_to_nlu_dict ([ aggExampleA ] ++ aggExampleC :: [ aggExampleB ]) =
        convert_annotations_to_nlu_dict ([ aggExampleA ] ++ [ aggExampleB ]))
    ∧ ([ "hola" ] : List String).Nodup
    ∧ ([ "hola" ] : List String).length =
        (renderedExamplesFor [ aggExampleA, aggExampleB ] "saludo").toFinset.card := by
  refine ⟨convert_annotations_dedup_first_seen.1 [ aggExampleA ] [ aggExampleB ]
    aggExampleC (Or.inl rfl), ?_, ?_⟩
  · exact ((convert_annotations_dedup_first_seen.2 [ aggExampleA, aggExampleB ]
      "saludo").2 [ "hola" ] (by decide)).1
  · exact ((convert_annotations_dedup_first_seen.2 [ aggExampleA, aggExampleB ]
      "saludo").2 [ "hola" ] (by decide)).2.2.2.2

/-- Python `sep.join(items)`. -/
def pyJoin (sep : String) : List String → String
  | [] => ""
  | [ x ] => x
  | x :: y :: xs => x ++ sep ++ pyJoin sep (y :: xs)

/-- Plain concatenation of a list of strings (used on the specification side
to state exact document shapes). -/
def sjoin : List String → String
  | [] => ""
  | x :: xs => x ++ sjoin xs

instance : DecidableRel (fun (a b : String × List String) => a.1 ≤ b.1) :=
  fun a b => inferInstanceAs (Decidable (a.1 ≤ b.1))

instance : IsTotal (String × List String) (fun a b => a.1 ≤ b.1) :=
  ⟨fun a b => le_total a.1 b.1⟩

instance : IsTrans (String × List String) (fun a b => a.1 ≤ b.1) :=
  ⟨fun _ _ _ h1 h2 => le_trans h1 h2⟩

/-- `export_service.convert_to_rasa_nlu_yaml`: emit the fixed header, then for
each intent (keys sorted as by Python `sorted(nlu_dict.items())`, i.e. by
label) an intent line, an `examples: |` line, the newline-joined bullet lines
built with the literal prefix `"    - "`, and a terminating blank line. -/
def convert_to_rasa_nlu_yaml (nlu_dict : List (String × List String)) : String :=
  let sorted := nlu_dict.insertionSort (fun a b => a.1 ≤ b.1)
  let nlu_data := sorted.map (fun p =>
    (p.1, pyJoin "\n" (p.2.map (fun ex => "    - " ++ ex))))
  nlu_data.foldl
    (fun acc item =>
      acc ++ ("- intent: " ++ item.1 ++ "\n") ++ "  examples: |\n" ++ (item.2 ++ "\n\n"))
    "version: \"3.1\"\n\nnlu:\n"

/-- The exact text of one serialized intent block, line by line: intent
declaration line, literal-block marker line, one four-space-indented bullet
line per example (in the given order), and the single blank line that
separates this block from the next. -/
def intentBlock (p : String × List String) : String :=
  sjoin (("- intent: " ++ p.1 ++ "\n") :: "  examples: |\n" ::
    (p.2.map (fun ex => "    - " ++ ex ++ "\n")) ++ [ "\n" ])

theorem sjoin_append (l1 l2 : List String) :
    sjoin (l1 ++ l2) = sjoin l1 ++ sjoin l2 := by
  induction l1 with
  | nil => simp [sjoin, String.empty_append]
  | cons x t ih => simp [sjoin, ih, String.append_assoc]

theorem foldl_append_sjoin {α : Type} (f : α → String) :
    ∀ (l : List α) (init : String),
      l.foldl (fun acc x => acc ++ f x) init = init ++ sjoin (l.map f) := by
  intro l
  induction l with
  | nil => intro init; simp [sjoin, String.append_empty]
  | cons x t ih =>
    intro init
    show t.foldl (fun acc x => acc ++ f x) (init ++ f x) = _
    rw [ih, String.append_assoc]
    rfl

theorem pyJoin_newline (l : List String) (h : l ≠ []) :
    pyJoin "\n" l ++ "\n" = sjoin (l.map (fun x => x ++ "\n")) := by
  induction l with
  | nil => exact absurd rfl h
  | cons x t ih =>
    cases t with
    | nil => simp [pyJoin, sjoin, String.append_empty]
    | cons y u =>
      show (x ++ "\n" ++ pyJoin "\n" (y :: u)) ++ "\n" = (x ++ "\n") ++ sjoin _
      rw [String.append_assoc (x ++ "\n"), ih (List.cons_ne_nil y u)]

/-- C1 (counterexample): on the one-intent dict `{saludo: [hola]}` the
serializer emits the bullet line with a four-space indent (`"    - hola"`),
not the two-space indent (`"  - hola"`) asserted by the claim. -/
theorem convert_to_rasa_nlu_yaml_two_space_refuted :
    convert_to_rasa_nlu_yaml [("saludo", [ "hola" ])] =
      "version: \"3.1\"\n\nnlu:\n- intent: saludo\n  examples: |\n    - hola\n\n"
    ∧ convert_to_rasa_nlu_yaml [("saludo", [ "hola" ])] ≠
      "version: \"3.1\"\n\nnlu:\n- intent: saludo\n  examples: |\n  - hola\n\n" := by
  exact ⟨rfl, by decide⟩

/-- C1 (amended): for every mapping whose example lists are non-empty, the
emitted document is exactly the fixed header (version line, blank line, `nlu:`
keyword) followed by one block per intent with the intents sorted by label,
where each block consists of the intent line, the `examples: |` line, one
bullet line `"    - <example>"` per example in aggregator order (four-space
indent, single dash+space), and exactly one blank line ending the block. -/
theorem convert_to_rasa_nlu_yaml_format :
    ∀ (nlu_dict : List (String × List String)),
      (∀ p ∈ nlu_dict, p.2 ≠ []) →
      convert_to_rasa_nlu_yaml nlu_dict =
        "version: \"3.1\"\n\nnlu:\n" ++
          sjoin ((nlu_dict.insertionSort (fun a b => a.1 ≤ b.1)).map intentBlock)
      ∧ ((nlu_dict.insertionSort (fun a b => a.1 ≤ b.1)).map Prod.fst).Sorted (· ≤ ·)
      ∧ List.Perm (nlu_dict.insertionSort (fun a b => a.1 ≤ b.1)) nlu_dict := by
  intro m hne
  refine ⟨?_, ?_, List.perm_insertionSort _ m⟩
  · unfold convert_to_rasa_nlu_yaml
    have hstep : (fun (acc : String) (item : String × String) =>
        acc ++ ("- intent: " ++ item.1 ++ "\n") ++ "  examples: |\n" ++
          (item.2 ++ "\n\n")) =
        (fun acc item =>
          acc ++ (("- intent: " ++ item.1 ++ "\n") ++
            ("  examples: |\n" ++ (item.2 ++ "\n\n")))) := by
      funext acc item
      rw [String.append_assoc, String.append_assoc]
    rw [hstep, foldl_append_sjoin, List.map_map]
    congr 1
    congr 1
    apply List.map_congr_left
    intro p hp
    have hp2 : p.2 ≠ [] := hne p ((List.perm_insertionSort _ m).subset hp)
    have hne2 : p.2.map (fun ex => "    - " ++ ex) ≠ [] := by
      simpa using hp2
    have hmap : p.2.map (fun ex => "    - " ++ ex ++ "\n") =
        (p.2.map (fun ex => "    - " ++ ex)).map (fun x => x ++ "\n") := by
      rw [List.map_map]
      rfl
    simp only [Function.comp_apply]
    unfold intentBlock
    simp only [sjoin, List.append_eq]
    rw [sjoin_append, hmap, ← pyJoin_newline _ hne2]
    simp only [sjoin, String.append_empty]
    rw [String.append_assoc (pyJoin "\n" (List.map (fun ex => "    - " ++ ex) p.2)) "\n" "\n"]
    rfl
  · have hs := List.sorted_insertionSort (fun (a b : String × List String) => a.1 ≤ b.1) m
    exact List.pairwise_map.2 hs

/-- C1 witness: the amended serializer theorem applied to a concrete
two-intent dict given in non-alphabetical order. -/
theorem convert_to_rasa_nlu_yaml_format_witness :
    (∀ p ∈ ([("b", [ "y" ]), ("a", [ "x", "z" ])] : List (String × List String)),
        p.2 ≠ [])
    ∧ convert_to_rasa_nlu_yaml [("b", [ "y" ]), ("a", [ "x", "z" ])] =
        "version: \"3.1\"\n\nnlu:\n" ++
          sjoin ((([("b", [ "y" ]), ("a", [ "x", "z" ])] :
              List (String × List String)).insertionSort
            (fun a b => a.1 ≤ b.1)).map intentBlock) := by
  refine ⟨by decide, ?_⟩
  exact (convert_to_rasa_nlu_yaml_format [("b", [ "y" ]), ("a", [ "x", "z" ])]
    (by decide)).1

/-- An entity dict as validated by `validate_entity_spans`
(`annotation_helpers.py`): every key may be absent (`ent.get(...)`). -/
structure ValEntity where
  entity : Option String
  value : Option String
  start : Option Int
  «end» : Option Int
deriving DecidableEq, Repr

/-- Python interpolation of a possibly-missing string (`None` prints as
`None`). -/
def optStr : Option String → String
  | none => "None"
  | some s => s

/-- Python interpolation of a possibly-missing integer. -/
def optInt : Option Int → String
  | none => "None"
  | some i => toString i

/-- `text[start:end]` for offsets already checked to satisfy
`0 <= start < end <= len(text)`. -/
def pySlice (text : String) (s e : Int) : String :=
  String.mk ((text.data.take e.toNat).drop s.toNat)

/-- Error strings produced by one iteration of the per-entity loop of
`validate_entity_spans`: field-presence checks first, then (only when both
offsets are present) the range checks, and the value/substring comparison
only for spans in range and correctly ordered. -/
def entityErrors (text : String) (text_length : Nat) (idx : Nat) (ent : ValEntity) :
    List String :=
  let e1 := if ent.entity = none ∨ ent.entity = some "" then
      [ "Entity #" ++ toString (idx+1) ++ ": Falta el campo \x27entity\x27" ] else []
  let e2 := if ent.value = none ∨ ent.value = some "" then
      [ "Entity #" ++ toString (idx+1) ++ ": Falta el campo \x27value\x27" ] else []
  match ent.start, ent.«end» with
  | none, _ =>
    e1 ++ e2 ++ [ "Entity #" ++ toString (idx+1) ++ ": Falta el campo \x27start\x27" ]
  | some _, none =>
    e1 ++ e2 ++ [ "Entity #" ++ toString (idx+1) ++ ": Falta el campo \x27end\x27" ]
  | some s, some e =>
    let e3 := if s < 0 then
        [ "Entity #" ++ toString (idx+1) ++ ": \x27start\x27 no puede ser negativo (start=" ++
          toString s ++ ")" ] else []
    let e4 := if e > (text_length : Int) then
        [ "Entity #" ++ toString (idx+1) ++ ": \x27end\x27 (" ++ toString e ++
          ") excede la longitud del texto (" ++ toString text_length ++ ")" ] else []
    if s ≥ e then
      e1 ++ e2 ++ e3 ++ e4 ++
        [ "Entity #" ++ toString (idx+1) ++ ": \x27start\x27 (" ++ toString s ++
          ") debe ser menor que \x27end\x27 (" ++ toString e ++ ")" ]
    else
      let e5 := if 0 ≤ s ∧ s < e ∧ e ≤ (text_length : Int) then
          (if ¬ (ent.value = some (pySlice text s e)) then
            [ "Entity #" ++ toString (idx+1) ++ ": El value \x27" ++ optStr ent.value ++
              "\x27 no coincide con el texto en posición " ++ toString s ++ "-" ++
              toString e ++ ": \x27" ++ pySlice text s e ++ "\x27" ] else [])
        else []
      e1 ++ e2 ++ e3 ++ e4 ++ e5

instance : DecidableRel (fun (a b : ValEntity) => a.start.getD 0 ≤ b.start.getD 0) :=
  fun a b => inferInstanceAs (Decidable (a.start.getD 0 ≤ b.start.getD 0))

/-- Overlap error message of the pairwise check (raw fields print `None`,
defaulted fields print their `get(..., 0)` value, as in the source). -/
def overlapMsg (c n : ValEntity) : String :=
  "Entities se solapan: \x27" ++ optStr c.value ++ "\x27 (" ++ optInt c.start ++ "-" ++
    toString (c.«end».getD 0) ++ ") con \x27" ++ optStr n.value ++ "\x27 (" ++
    toString (n.start.getD 0) ++ "-" ++ optInt n.«end» ++ ")"

/-- Final loop of `validate_entity_spans`: sort by `start` (default 0) and
record one error per adjacent pair with `current.end > next.start`. -/
def overlapErrors (entities : List ValEntity) : List String :=
  let sorted_entities := entities.insertionSort (fun a b => a.start.getD 0 ≤ b.start.getD 0)
  (sorted_entities.zip sorted_entities.tail).filterMap (fun pr =>
    if pr.1.«end».getD 0 > pr.2.start.getD 0 then some (overlapMsg pr.1 pr.2) else none)

/-- `annotation_helpers.validate_entity_spans`: empty text short-circuits; an
empty entity list is valid; otherwise all per-entity errors are accumulated,
then all pairwise overlap errors, and validity is emptiness of the list. -/
def validate_entity_spans (text : String) (entities : List ValEntity) :
    Bool × List String :=
  if text = "" then (false, [ "El texto no puede estar vacío" ])
  else if entities = [] then (true, [])
  else
    let text_length := text.length
    let errors :=
      (entities.enum.map (fun pr => entityErrors text text_length pr.1 pr.2)).flatten ++
        overlapErrors entities
    (errors.isEmpty, errors)

/-- Claim-side defect count of a single entity: a missing/empty label, a
missing/empty value, a missing offset, an out-of-range or ill-ordered span,
and an in-range value/substring mismatch each count as one defect. -/
def defectScore (text : String) (tl : Nat) (ent : ValEntity) : Nat :=
  (if ent.entity = none ∨ ent.entity = some "" then 1 else 0)
  + (if ent.value = none ∨ ent.value = some "" then 1 else 0)
  + (if ent.start = none ∨ ent.«end» = none then 1 else 0)
  + (match ent.start, ent.«end» with
     | some s, some e => if s < 0 ∨ e > (tl : Int) ∨ s ≥ e then 1 else 0
     | _, _ => 0)
  + (match ent.start, ent.«end» with
     | some s, some e =>
       if 0 ≤ s ∧ s < e ∧ e ≤ (tl : Int) ∧ ¬ (ent.value = some (pySlice text s e))
       then 1 else 0
     | _, _ => 0)

/-- Claim-side count of overlapping adjacent pairs in start-sorted order. -/
def overlapPairsCount (entities : List ValEntity) : Nat :=
  let sorted_entities := entities.insertionSort (fun a b => a.start.getD 0 ≤ b.start.getD 0)
  ((sorted_entities.zip sorted_entities.tail).filter (fun pr =>
    decide (pr.1.«end».getD 0 > pr.2.start.getD 0))).length

theorem defectScore_le_entityErrors (text : String) (tl : Nat) (idx : Nat)
    (ent : ValEntity) :
    defectScore text tl ent ≤ (entityErrors text tl idx ent).length := by
  rcases hstart : ent.start with _ | s
  · simp only [defectScore, entityErrors, hstart, List.length_append]
    split_ifs <;> simp_all
  · rcases hend : ent.«end» with _ | e
    · simp only [defectScore, entityErrors, hstart, hend, List.length_append]
      split_ifs <;> simp_all
    · simp only [defectScore, entityErrors, hstart, hend]
      have b1 : (if (ent.entity = none ∨ ent.entity = some "") then 1 else 0) ≤
          (if (ent.entity = none ∨ ent.entity = some "") then
            [ "Entity #" ++ toString (idx+1) ++ ": Falta el campo \x27entity\x27" ]
          else []).length := by
        by_cases h : (ent.entity = none ∨ ent.entity = some "") <;> simp [h]
      have b2 : (if (ent.value = none ∨ ent.value = some "") then 1 else 0) ≤
          (if (ent.value = none ∨ ent.value = some "") then
            [ "Entity #" ++ toString (idx+1) ++ ": Falta el campo \x27value\x27" ]
          else []).length := by
        by_cases h : (ent.value = none ∨ ent.value = some "") <;> simp [h]
      have ht3 : (if ((some s : Option Int) = none ∨ (some e : Option Int) = none)
          then 1 else 0) = 0 := by simp
      by_cases hE : s ≥ e
      · rw [if_pos hE]
        have ht4 : (if (s < 0 ∨ e > (tl : Int) ∨ s ≥ e) then 1 else 0) = 1 :=
          if_pos (Or.inr (Or.inr hE))
        have ht5 : (if (0 ≤ s ∧ s < e ∧ e ≤ (tl : Int) ∧
            ¬ (ent.value = some (pySlice text s e))) then 1 else 0) = 0 := by
          rw [if_neg]
          rintro ⟨_, h2, _, _⟩
          omega
        rw [ht3, ht4, ht5]
        simp only [List.length_append, List.length_cons, List.length_nil]
        omega
      · rw [if_neg hE]
        by_cases hIn : (0 ≤ s ∧ s < e ∧ e ≤ (tl : Int))
        · rw [if_pos hIn]
          by_cases hM : ent.value = some (pySlice text s e)
          · rw [if_neg (not_not_intro hM)]
            have ht4 : (if (s < 0 ∨ e > (tl : Int) ∨ s ≥ e) then 1 else 0) = 0 := by
              rw [if_neg]
              obtain ⟨h1, h2, h3⟩ := hIn
              rintro (h | h | h) <;> omega
            have ht5 : (if (0 ≤ s ∧ s < e ∧ e ≤ (tl : Int) ∧
                ¬ (ent.value = some (pySlice text s e))) then 1 else 0) = 0 := by
              rw [if_neg]
              rintro ⟨_, _, _, h4⟩
              exact h4 hM
            rw [ht3, ht4, ht5]
            simp only [List.length_append, List.length_nil]
            omega
          · rw [if_pos hM]
            have ht4 : (if (s < 0 ∨ e > (tl : Int) ∨ s ≥ e) then 1 else 0) = 0 := by
              rw [if_neg]
              obtain ⟨h1, h2, h3⟩ := hIn
              rintro (h | h | h) <;> omega
            have ht5 : (if (0 ≤ s ∧ s < e ∧ e ≤ (tl : Int) ∧
                ¬ (ent.value = some (pySlice text s e))) then 1 else 0) = 1 :=
              if_pos ⟨hIn.1, hIn.2.1, hIn.2.2, hM⟩
            rw [ht3, ht4, ht5]
            simp only [List.length_append, List.length_cons, List.length_nil]
            omega
        · rw [if_neg hIn]
          have hse : s < e := lt_of_not_ge hE
          have hCD : s < 0 ∨ e > (tl : Int) := by
            by_contra hc
            push_neg at hc
            exact hIn ⟨hc.1, hse, hc.2⟩
          have ht4 : (if (s < 0 ∨ e > (tl : Int) ∨ s ≥ e) then 1 else 0) = 1 := by
            rcases hCD with h | h
            · exact if_pos (Or.inl h)
            · exact if_pos (Or.inr (Or.inl h))
          have ht5 : (if (0 ≤ s ∧ s < e ∧ e ≤ (tl : Int) ∧
              ¬ (ent.value = some (pySlice text s e))) then 1 else 0) = 0 := by
            rw [if_neg]
            rintro ⟨h1, h2, h3, _⟩
            exact hIn ⟨h1, h2, h3⟩
          have b34 : 1 ≤ (if s < 0 then
              [ "Entity #" ++ toString (idx+1) ++
                ": \x27start\x27 no puede ser negativo (start=" ++ toString s ++ ")" ]
            else []).length +
            (if e > (tl : Int) then
              [ "Entity #" ++ toString (idx+1) ++ ": \x27end\x27 (" ++ toString e ++
                ") excede la longitud del texto (" ++ toString tl ++ ")" ]
            else []).length := by
            rcases hCD with h | h <;> simp [h]
          rw [ht3, ht4, ht5]
          simp only [List.length_append, List.length_nil]
          omega

theorem length_filterMap_ite {α β : Type} (c : α → Prop) [DecidablePred c]
    (g : α → β) (l : List α) :
    (l.filterMap (fun x => if c x then some (g x) else none)).length =
      (l.filter (fun x => decide (c x))).length := by
  induction l with
  | nil => rfl
  | cons x t ih =>
    by_cases h : c x <;>
      simp [List.filterMap_cons, List.filter_cons, h, ih]

theorem overlapErrors_length (entities : List ValEntity) :
    (overlapErrors entities).length = overlapPairsCount entities := by
  unfold overlapErrors overlapPairsCount
  exact length_filterMap_ite
    (fun pr : ValEntity × ValEntity => pr.1.«end».getD 0 > pr.2.start.getD 0)
    (fun pr : ValEntity × ValEntity => overlapMsg pr.1 pr.2) _

/-- C3: the span validator short-circuits exactly on empty text (one error,
entities unexamined); it is valid iff the text is non-empty and the error
list is empty; and on non-empty text the error list contains at least one
error per defect of every entity plus one per overlapping adjacent pair —
it never stops at the first defect. -/
theorem validate_entity_spans_accumulates :
    (∀ (entities : List ValEntity),
        validate_entity_spans "" entities = (false, [ "El texto no puede estar vacío" ]))
    ∧ (∀ (text : String) (entities : List ValEntity),
        ((validate_entity_spans text entities).1 = true ↔
          (text ≠ "" ∧ (validate_entity_spans text entities).2 = [])))
    ∧ (∀ (text : String) (entities : List ValEntity), text ≠ "" →
        (entities.map (defectScore text text.length)).sum + overlapPairsCount entities ≤
          (validate_entity_spans text entities).2.length) := by
  refine ⟨fun entities => rfl, ?_, ?_⟩
  · intro text entities
    unfold validate_entity_spans
    by_cases htext : text = ""
    · simp [htext]
    · by_cases hents : entities = []
      · simp [htext, hents]
      · simp only [if_neg htext, if_neg hents]
        simp [htext, List.isEmpty_iff]
  · intro text entities htext
    unfold validate_entity_spans
    rw [if_neg htext]
    by_cases hents : entities = []
    · subst hents
      simp [overlapPairsCount]
    · rw [if_neg hents]
      simp only [List.length_append]
      rw [← overlapErrors_length]
      have hflat : ((entities.enum.map
          (fun pr => entityErrors text text.length pr.1 pr.2)).flatten).length =
          ((entities.enum.map
            (fun pr => (entityErrors text text.length pr.1 pr.2).length)).sum) := by
        rw [List.length_flatten, List.map_map]
        rfl
      rw [hflat]
      have hsum : (entities.map (defectScore text text.length)).sum ≤
          (entities.enum.map
            (fun pr => (entityErrors text text.length pr.1 pr.2).length)).sum := by
        have hrewrite : entities.map (defectScore text text.length) =
            entities.enum.map (fun pr => defectScore text text.length pr.2) := by
          rw [show (fun pr : Nat × ValEntity => defectScore text text.length pr.2) =
            (defectScore text text.length) ∘ Prod.snd from rfl]
          rw [← List.map_map, List.enum_map_snd]
        rw [hrewrite]
        apply List.sum_le_sum
        intro pr _
        exact defectScore_le_entityErrors text text.length pr.1 pr.2
      omega

/-- A defective concrete entity: in-range span whose value disagrees with the
covered substring. -/
def valEntityMismatch : ValEntity :=
  { entity := some "producto", value := some "zz", start := some 0, «end» := some 2 }

/-- A defective concrete entity: missing label and value, end offset past the
text, overlapping the previous entity. -/
def valEntityBroken : ValEntity :=
  { entity := none, value := none, start := some 1, «end» := some 9 }

/-- C3 witness: the validator theorem applied to the concrete text `abc` with
two defective, overlapping entities. -/
theorem validate_entity_spans_accumulates_witness :
    ("abc" : String) ≠ "" ∧
      (([ valEntityMismatch, valEntityBroken ].map
          (defectScore "abc" ("abc" : String).length)).sum +
        overlapPairsCount [ valEntityMismatch, valEntityBroken ] ≤
        (validate_entity_spans "abc" [ valEntityMismatch, valEntityBroken ]).2.length) :=
  ⟨by decide, validate_entity_spans_accumulates.2.2 "abc"
    [ valEntityMismatch, valEntityBroken ] (by decide)⟩

/-- Split a character list at the first occurrence of `c`: the part before it
and the part after it, or `none` when `c` does not occur. -/
def splitFirst (c : Char) : List Char → Option (List Char × List Char)
  | [] => none
  | a :: l =>
    if a = c then some ([], l)
    else
      match splitFirst c l with
      | some pr => some (a :: pr.1, pr.2)
      | none => none

/-- The non-overlapping matches of the pattern `\[([^\]]+)\]\(([^)]+)\)` as
found by `re.findall`, over a character list: at a `[` the greedy `[^\]]+`
necessarily stops at the first `]`; a failed match restarts one character
after the `[`; a successful match restarts after its closing `)`.  Any
`fuel ≥ length of the input` makes the recursion total without changing the
result; the entry point passes the input's length. -/
def findMarkdownAux : Nat → List Char → List (List Char × List Char)
  | 0, _ => []
  | _, [] => []
  | fuel+1, c :: rest =>
    if c = '[' then
      match splitFirst ']' rest with
      | some (etext, after1) =>
        if etext = [] then findMarkdownAux fuel rest
        else
          match after1 with
          | '(' :: after2 =>
            match splitFirst ')' after2 with
            | some (elabel, after3) =>
              if elabel = [] then findMarkdownAux fuel rest
              else (etext, elabel) :: findMarkdownAux fuel after3
            | none => findMarkdownAux fuel rest
          | _ => findMarkdownAux fuel rest
      | none => findMarkdownAux fuel rest
    else findMarkdownAux fuel rest

/-- `re.findall(r'\[([^\]]+)\]\(([^)]+)\)', s)`: the (entity text, entity
type) pairs of the markdown-format entities in a rendered example. -/
def findEntitiesIn (s : String) : List (String × String) :=
  (findMarkdownAux s.data.length s.data).map (fun pr => (String.mk pr.1, String.mk pr.2))

/-- `export_service._validate_intent_exists`. -/
def _validate_intent_exists (intent : String) (existing_intents : List String) :
    Bool × Option String :=
  if intent ∈ existing_intents then (true, none)
  else (false, some ("Intent \x27" ++ intent ++
    "\x27 not found in domain.yml. This will create a new intent."))

/-- `export_service.validate_annotations_export`: the error list is created
empty and never appended to; the warning list collects one unknown-intent
warning per intent not in the reference vocabulary and one deduplicated
warning per unknown entity type occurring in an example of an intent. -/
def validate_annotations_export (existing_intents existing_entities : List String)
    (nlu_dict : List (String × List String)) : List String × List String :=
  let errors : List String := []
  let warnings := nlu_dict.foldl (fun ws p =>
    let ws1 := match (_validate_intent_exists p.1 existing_intents).2 with
      | some w => ws ++ [ w ]
      | none => ws
    p.2.foldl (fun ws2 ex =>
      (findEntitiesIn ex).foldl (fun ws3 pr =>
        if pr.2 ∉ existing_entities then
          (let warning_msg := "Entity \x27" ++ pr.2 ++ "\x27 in intent \x27" ++ p.1 ++
            "\x27 not found in existing data"
          if warning_msg ∈ ws3 then ws3 else ws3 ++ [ warning_msg ])
        else ws3) ws2) ws1) []
  (errors, warnings)

/-- The result triple of `export_service.validate_nlu_yaml`
(`is_valid`, `errors`, `warnings`).  That function parses the document with
the external YAML library, which has no pure embedding; the router models
take its verdict as an input and the claims quantify over it. -/
structure FormatValidation where
  is_valid : Bool
  errors : List String
  warnings : List String
deriving DecidableEq, Repr

/-- The fields of `NLUPreviewResponse` that the verified claims mention.  The
statistics block (whose average field is a float) is omitted. -/
structure PreviewResponse where
  yaml_content : String
  validation_errors : List String
  validation_warnings : List String
  is_valid : Bool
  can_export : Bool
deriving DecidableEq, Repr

/-- `export.preview_nlu_export` after the database read: given the matching
approved records and the format-validator verdict on the generated document,
either the empty-set placeholder or the full preview with combined error and
warning lists and `can_export = (all errors empty)`. -/
def preview_nlu_export (anns : List AnnotationRecord) (fmt : FormatValidation)
    (existing_intents existing_entities : List String) : PreviewResponse :=
  if anns = [] then
    { yaml_content := "# No approved annotations found for the specified criteria",
      validation_errors := [],
      validation_warnings := [ "No annotations available for export" ],
      is_valid := false,
      can_export := false }
  else
    let nlu_dict := convert_annotations_to_nlu_dict anns
    let yaml_content := convert_to_rasa_nlu_yaml nlu_dict
    let dv := validate_annotations_export existing_intents existing_entities nlu_dict
    let all_errors := fmt.errors ++ dv.1
    let all_warnings := fmt.warnings ++ dv.2
    { yaml_content := yaml_content,
      validation_errors := all_errors,
      validation_warnings := all_warnings,
      is_valid := fmt.is_valid,
      can_export := all_errors.isEmpty }

/-- `export.download_nlu_export` after the database read: 404 on an empty
match, 400 when the format validator is not clean (`if not is_valid or
errors`), otherwise the serialized document itself. -/
def download_nlu_export (anns : List AnnotationRecord) (fmt : FormatValidation) :
    Except ApiError String :=
  if anns = [] then
    Except.error ⟨404, "No approved annotations found for the specified criteria"⟩
  else
    let nlu_dict := convert_annotations_to_nlu_dict anns
    let yaml_content := convert_to_rasa_nlu_yaml nlu_dict
    if fmt.is_valid = false ∨ fmt.errors ≠ [] then
      Except.error ⟨400, "Cannot export invalid YAML. Errors: " ++
        String.intercalate ", " fmt.errors⟩
    else
      Except.ok yaml_content

/-- C4: drift validation never produces a fatal error — its error component
is empty for every input — and on the non-empty-annotations path the
preview's exportability flag is true iff the structural-error list reported
by the format validator is empty, whatever warnings either validator
produced. -/
theorem validate_annotations_export_never_fatal :
    (∀ (existing_intents existing_entities : List String)
        (nlu_dict : List (String × List String)),
        (validate_annotations_export existing_intents existing_entities nlu_dict).1 = [])
    ∧ (∀ (anns : List AnnotationRecord) (fmt : FormatValidation)
        (existing_intents existing_entities : List String), anns ≠ [] →
        ((preview_nlu_export anns fmt existing_intents existing_entities).can_export
            = true ↔ fmt.errors = [])
        ∧ (preview_nlu_export anns fmt existing_intents existing_entities).validation_errors
            = fmt.errors) := by
  constructor
  · intro ei ee m
    rfl
  · intro anns fmt ei ee hanns
    unfold preview_nlu_export
    rw [if_neg hanns]
    have hdv : (validate_annotations_export ei ee
        (convert_annotations_to_nlu_dict anns)).1 = [] := rfl
    constructor
    · simp [hdv, List.isEmpty_iff]
    · simp [hdv]

/-- A concrete approved record used by the router witnesses. -/
def pvAnn : AnnotationRecord :=
  { message_text := "quiero dos", corrected_intent := some "pedido",
    corrected_entities := some [⟨"cantidad", "dos", 7, 10⟩],
    status := "approved", annotated_by := 4,
    rejection_reason := none, approved_by := some 2 }

/-- C4 witness: the preview exportability equivalence at a concrete state
with one drift warning pending and no structural error. -/
theorem validate_annotations_export_never_fatal_witness :
    (([ pvAnn ] : List AnnotationRecord) ≠ []) ∧
      ((preview_nlu_export [ pvAnn ] ⟨true, [], [ "w" ]⟩ [] []).can_export = true ↔
        (FormatValidation.mk true [] [ "w" ]).errors = []) :=
  ⟨by decide, (validate_annotations_export_never_fatal.2 [ pvAnn ]
    ⟨true, [], [ "w" ]⟩ [] [] (by decide)).1⟩

/-- C6: with zero matching approved annotations the preview returns the
placeholder response (`can_export = false`, "no annotations" warning) while
download fails with 404; on a non-empty match download fails with 400
whenever the structural-error list is non-empty, and succeeds whenever the
format validator is clean — its warnings never block the download. -/
theorem preview_placeholder_download_guards :
    (∀ (fmt : FormatValidation) (ei ee : List String),
        preview_nlu_export [] fmt ei ee =
          { yaml_content := "# No approved annotations found for the specified criteria",
            validation_errors := [],
            validation_warnings := [ "No annotations available for export" ],
            is_valid := false,
            can_export := false })
    ∧ (∀ (fmt : FormatValidation),
        download_nlu_export [] fmt =
          Except.error ⟨404, "No approved annotations found for the specified criteria"⟩)
    ∧ (∀ (anns : List AnnotationRecord) (fmt : FormatValidation),
        anns ≠ [] → fmt.errors ≠ [] →
        download_nlu_export anns fmt =
          Except.error ⟨400, "Cannot export invalid YAML. Errors: " ++
            String.intercalate ", " fmt.errors⟩)
    ∧ (∀ (anns : List AnnotationRecord) (fmt : FormatValidation),
        anns ≠ [] → fmt.is_valid = true → fmt.errors = [] →
        download_nlu_export anns fmt =
          Except.ok (convert_to_rasa_nlu_yaml (convert_annotations_to_nlu_dict anns))) := by
  refine ⟨fun fmt ei ee => rfl, fun fmt => rfl, ?_, ?_⟩
  · intro anns fmt hanns herr
    unfold download_nlu_export
    rw [if_neg hanns, if_pos (Or.inr herr)]
  · intro anns fmt hanns hv herr
    unfold download_nlu_export
    rw [if_neg hanns, if_neg (by simp [hv, herr])]

/-- C6 witness: the guards applied at a concrete state — structural errors
block a download of one record, and a clean verdict with warnings does not. -/
theorem preview_placeholder_download_guards_witness :
    (([ pvAnn ] : List AnnotationRecord) ≠ []) ∧
      download_nlu_export [ pvAnn ] ⟨false, [ "Missing \x27version\x27 field" ], []⟩ =
        Except.error ⟨400, "Cannot export invalid YAML. Errors: " ++
          String.intercalate ", " [ "Missing \x27version\x27 field" ]⟩ ∧
      download_nlu_export [ pvAnn ] ⟨true, [], [ "drift warning" ]⟩ =
        Except.ok (convert_to_rasa_nlu_yaml (convert_annotations_to_nlu_dict [ pvAnn ])) :=
  ⟨by decide,
    preview_placeholder_download_guards.2.2.1 [ pvAnn ]
      ⟨false, [ "Missing \x27version\x27 field" ], []⟩ (by decide) (by decide),
    preview_placeholder_download_guards.2.2.2 [ pvAnn ]
      ⟨true, [], [ "drift warning" ]⟩ (by decide) rfl rfl⟩

/-- C7: whenever download succeeds, the returned bytes are exactly the
preview's document for the same annotation set and format-validator verdict:
both run the identical pure pipeline over that shared state (the embedding is
purely functional, mirroring the read-only export path, so neither call can
mutate a record). -/
theorem download_matches_preview :
    ∀ (anns : List AnnotationRecord) (fmt : FormatValidation)
      (ei ee : List String) (content : String),
      download_nlu_export anns fmt = Except.ok content →
      (preview_nlu_export anns fmt ei ee).yaml_content = content := by
  intro anns fmt ei ee content h
  unfold download_nlu_export at h
  by_cases hanns : anns = []
  · rw [if_pos hanns] at h
    exact Except.noConfusion h
  · rw [if_neg hanns] at h
    by_cases hcond : (fmt.is_valid = false ∨ fmt.errors ≠ [])
    · rw [if_pos hcond] at h
      exact Except.noConfusion h
    · rw [if_neg hcond] at h
      unfold preview_nlu_export
      rw [if_neg hanns]
      exact Except.ok.inj h

/-- C7 witness: download and preview agree on the document for a concrete
record set and a clean format verdict. -/
theorem download_matches_preview_witness :
    download_nlu_export [ pvAnn ] ⟨true, [], []⟩ =
      Except.ok (convert_to_rasa_nlu_yaml (convert_annotations_to_nlu_dict [ pvAnn ]))
    ∧ (preview_nlu_export [ pvAnn ] ⟨true, [], []⟩ [] []).yaml_content =
      convert_to_rasa_nlu_yaml (convert_annotations_to_nlu_dict [ pvAnn ]) :=
  ⟨rfl, download_matches_preview [ pvAnn ] ⟨true, [], []⟩ [] [] _ rfl⟩
